import Mathlib

/-! UDP output client (plugins/outputs/influxdb/client/udp.go).

A shallow embedding of the datagram client: its constructor `NewUDP`, the
methods `Query`, `Write`, `WriteWithParams`, `WriteStream` and
`WriteStreamWithParams`, and the part of the Go standard library they call
(`io.CopyBuffer`, `fmt.Errorf`, `make`).

Conventions of the embedding.

* A Go `[]byte` is a `List Byte`; the client's buffer is a non-nil slice.
* Go `int`/`int64` counts are `Int`.  The counters of this file are bounded by
  the number of bytes copied, so no wrap-around is modelled, and `int(n)` is
  the identity (64-bit `int`).
* A call that returns `(value, error)` returns a pair of options or a record;
  a run-time panic is an explicit outcome.
* The standard library functions whose result depends on the outside world
  (`url.Parse`, `net.ResolveUDPAddr`, `net.DialUDP`, `(*net.UDPConn).Write`)
  and the allocation limit of the runtime are fields of the record `Net`; an
  `io.Reader` is a step function on a state, with the `WriteTo` method of its
  dynamic type when it has one.  Theorems quantify over all of them.
* `UDPConn.sent` is ghost state: the payloads handed to the socket, in order.
* The copy loop has no bound in Go; `copyLoop` takes the number of iterations
  to run and reports `Status.running` when the loop has not finished by then.
-/

namespace UDP

/-- One octet. -/
abbrev Byte := Fin 256

/-- Go error values seen by the client. `EOF`, `ErrShortWrite` and
`errInvalidWrite` are the sentinels of package `io`; `external` is any other
error value produced outside this package (by a reader, the socket, the URL
parser, the resolver, the dialer); `errorf` is a value built by `fmt.Errorf`. -/
inductive GoError where
  | EOF
  | ErrShortWrite
  | errInvalidWrite
  | external (msg : String)
  | errorf (msg : String)
  deriving DecidableEq, Repr

/-- The method `Error()` of an error value: its text. -/
def GoError.Error : GoError → String
  | .EOF => "EOF"
  | .ErrShortWrite => "short write"
  | .errInvalidWrite => "invalid write result"
  | .external msg => msg
  | .errorf msg => msg

/-- The function `fmt.Errorf`, applied to an already formatted text. -/
def Errorf (msg : String) : GoError := .errorf msg

/-- The verb `%d` of package `fmt` on an integer: its decimal text. -/
def fmtInt (i : Int) : String := toString i

/-- The constant `UDPPayloadSize`: the default payload size. -/
def UDPPayloadSize : Int := 512

/-- The struct `UDPConfig`. -/
structure UDPConfig where
  URL : String
  PayloadSize : Int
  deriving DecidableEq, Repr

/-- The part of `url.URL` the client reads. -/
structure URL where
  Host : String
  deriving DecidableEq, Repr

/-- What `(*net.UDPConn).Write` returns, with the socket afterwards. -/
structure WriteResult (κ : Type) where
  n : Int
  err : Option GoError
  next : κ

/-- The outside world of the client: URL parsing, address resolution, dialing,
the socket's send, and `maxAlloc`, the largest length for which the runtime's
`makeslice` allocates (it depends on the platform). `α` is `*net.UDPAddr`, `κ`
the state of a socket. -/
structure Net (α κ : Type) where
  Parse : String → Except GoError URL
  ResolveUDPAddr : String → Except GoError α
  AddrString : α → String
  DialUDP : α → Except GoError κ
  connWrite : κ → List Byte → WriteResult κ
  maxAlloc : Nat

/-- A `*net.UDPConn`: the socket and the payloads sent on it so far. -/
structure UDPConn (κ : Type) where
  sock : κ
  sent : List (List Byte)

/-- The method `(*net.UDPConn).Write`: one send on the socket. -/
def UDPConn.Write {α κ : Type} (net : Net α κ) (c : UDPConn κ) (b : List Byte) :
    WriteResult (UDPConn κ) :=
  { n := (net.connWrite c.sock b).n
    err := (net.connWrite c.sock b).err
    next := { sock := (net.connWrite c.sock b).next, sent := c.sent ++ [b] } }

/-- The struct `udpClient`. -/
structure udpClient (κ : Type) where
  conn : UDPConn κ
  buffer : List Byte

/-- How a Go call ends: it returns its results or it panics. -/
inductive Outcome (ρ : Type) where
  | returned (r : ρ)
  | panicked (msg : String)

/-- The built-in `make([]byte, size)`: a zeroed slice, or the run-time panic
"makeslice: len out of range" on a negative length and on a length above
`maxAlloc`. Running out of memory below that limit ends the process and is not
modelled. -/
def makeBytes (maxAlloc : Nat) (size : Int) : Option (List Byte) :=
  if size < 0 ∨ (maxAlloc : Int) < size then none else some (List.replicate size.toNat 0)

/-- A call `NewUDP` makes to the outside world. -/
inductive Call (α : Type) where
  | parse (raw : String)
  | resolve (host : String)
  | dial (addr : α)

/-- A run of `NewUDP`: how it ended, the calls it made in order, and the
sockets it opened and did not close. -/
structure Construction (α κ : Type) where
  outcome : Outcome (Option (udpClient κ) × Option GoError)
  calls : List (Call α)
  opened : List κ

/-- The function `NewUDP`. -/
def NewUDP {α κ : Type} (net : Net α κ) (config : UDPConfig) : Construction α κ :=
  match net.Parse config.URL with
  | .error err =>
    { outcome := .returned (none, some (Errorf
        ("Error parsing UDP url [" ++ config.URL ++ "]: " ++ err.Error)))
      calls := [.parse config.URL]
      opened := [] }
  | .ok p =>
    match net.ResolveUDPAddr p.Host with
    | .error err =>
      { outcome := .returned (none, some (Errorf
          ("Error resolving UDP Address [" ++ p.Host ++ "]: " ++ err.Error)))
        calls := [.parse config.URL, .resolve p.Host]
        opened := [] }
    | .ok udpAddr =>
      match net.DialUDP udpAddr with
      | .error err =>
        { outcome := .returned (none, some (Errorf
            ("Error dialing UDP address [" ++ net.AddrString udpAddr ++ "]: " ++ err.Error)))
          calls := [.parse config.URL, .resolve p.Host, .dial udpAddr]
          opened := [] }
      | .ok conn =>
        let size := if config.PayloadSize = 0 then UDPPayloadSize else config.PayloadSize
        match makeBytes net.maxAlloc size with
        | none =>
          { outcome := .panicked "runtime error: makeslice: len out of range"
            calls := [.parse config.URL, .resolve p.Host, .dial udpAddr]
            opened := [conn] }
        | some buf =>
          { outcome := .returned (some { conn := { sock := conn, sent := [] }, buffer := buf }, none)
            calls := [.parse config.URL, .resolve p.Host, .dial udpAddr]
            opened := [conn] }

/-- The method `Query`: the results and the client afterwards. -/
def udpClient.Query {κ : Type} (c : udpClient κ) (_command : String) :
    Option GoError × udpClient κ :=
  (none, c)

/-- The method `Write`: count, error, and the client afterwards. -/
def udpClient.Write {α κ : Type} (net : Net α κ) (c : udpClient κ) (b : List Byte) :
    (Int × Option GoError) × udpClient κ :=
  (((c.conn.Write net b).n, (c.conn.Write net b).err),
   { c with conn := (c.conn.Write net b).next })

/-- The method `WriteWithParams`; `ω` is the type `WriteParams`, declared in
another file of the package. -/
def udpClient.WriteWithParams {α κ ω : Type} (net : Net α κ) (c : udpClient κ)
    (b : List Byte) (_wp : ω) : (Int × Option GoError) × udpClient κ :=
  c.Write net b

/-- What `Read` returns: the bytes it stored at the start of `p` (their number
is the count `n`), the error, and the reader afterwards. -/
structure ReadResult (σ : Type) where
  data : List Byte
  err : Option GoError
  next : σ

/-- What a `WriteTo(w)` method does: it returns `(n, err)`, or panics, or
calls `w.Write(b)` and goes on as the count and the error of that call say. -/
inductive WriteToProg (σ : Type) where
  | ret (n : Int) (err : Option GoError) (next : σ)
  | panic (msg : String) (next : σ)
  | write (b : List Byte) (k : Int → Option GoError → WriteToProg σ)

/-- An `io.Reader` with state `σ`: `Read s len` is the call `Read(p)` with
`len(p) = len` in state `s`; `WriteTo` is the method `WriteTo` of the reader's
dynamic type when it has one (it implements `io.WriterTo`), and `none`
otherwise. -/
structure Reader (σ : Type) where
  Read : σ → Nat → ReadResult σ
  WriteTo : Option (σ → WriteToProg σ) := none

/-- The variables of the loop of `io.copyBuffer`. -/
structure CopyState (σ κ : Type) where
  src : σ
  dst : UDPConn κ
  buf : List Byte
  written : Int

/-- Where a copy stands: still in its loop, returned `(written, err)`, or
panicked. -/
inductive Status where
  | running
  | returned (written : Int) (err : Option GoError)
  | panicked (msg : String)
  deriving DecidableEq, Repr

/-- The tail of the loop body of `io.copyBuffer`: the test of the read error. -/
def readErrStatus (er : Option GoError) (written : Int) : Status :=
  match er with
  | some e => .returned written (if e = GoError.EOF then none else some e)
  | none => .running

/-- One iteration of the loop of `io.copyBuffer`. -/
def copyIter {α κ σ : Type} (net : Net α κ) (rd : Reader σ) (st : CopyState σ κ) :
    CopyState σ κ × Status :=
  let rr := rd.Read st.src st.buf.length
  let nr : Nat := rr.data.length
  if st.buf.length < nr then
    ({ st with src := rr.next }, .panicked "runtime error: slice bounds out of range")
  else
    let buf := rr.data ++ st.buf.drop nr
    if 0 < nr then
      let wr := st.dst.Write net (buf.take nr)
      let invalid : Bool := decide (wr.n < 0) || decide ((nr : Int) < wr.n)
      let nw : Int := if invalid then 0 else wr.n
      let ew : Option GoError :=
        if invalid && wr.err.isNone then some GoError.errInvalidWrite else wr.err
      let written := st.written + nw
      let st1 : CopyState σ κ := { src := rr.next, dst := wr.next, buf := buf, written := written }
      match ew with
      | some e => (st1, .returned written (some e))
      | none =>
        if (nr : Int) ≠ nw then (st1, .returned written (some GoError.ErrShortWrite))
        else (st1, readErrStatus rr.err written)
    else
      ({ st with src := rr.next, buf := buf }, readErrStatus rr.err st.written)

/-- The loop of `io.copyBuffer`, run for at most `fuel` iterations. -/
def copyLoop {α κ σ : Type} (net : Net α κ) (rd : Reader σ) :
    Nat → CopyState σ κ → CopyState σ κ × Status
  | 0, st => (st, .running)
  | fuel + 1, st =>
    match copyIter net rd st with
    | (st1, .running) => copyLoop net rd fuel st1
    | r => r

/-- A run of `src.WriteTo(dst)`: the reader and the socket afterwards, and how
the call ended. -/
def WriteToProg.run {α κ σ : Type} (net : Net α κ) :
    WriteToProg σ → UDPConn κ → (σ × UDPConn κ) × Status
  | .ret n err next, dst => ((next, dst), .returned n err)
  | .panic msg next, dst => ((next, dst), .panicked msg)
  | .write b k, dst =>
    (k (dst.Write net b).n (dst.Write net b).err).run net (dst.Write net b).next

/-- The function `io.CopyBuffer(dst, src, buf)`: it panics on an empty buffer;
when the source has a `WriteTo` it returns `src.WriteTo(dst)` and leaves `buf`
unused; otherwise it runs the loop. (The third case of `io.copyBuffer`, a
destination with `ReadFrom(io.Reader)`, does not arise: a `*net.UDPConn` has
no such method.) -/
def CopyBuffer {α κ σ : Type} (net : Net α κ) (rd : Reader σ) (dst : UDPConn κ) (src : σ)
    (buf : List Byte) (fuel : Nat) : CopyState σ κ × Status :=
  if buf.length = 0 then
    ({ src := src, dst := dst, buf := buf, written := 0 }, .panicked "empty buffer in CopyBuffer")
  else
    match rd.WriteTo with
    | some wt =>
      ({ src := ((wt src).run net dst).1.1, dst := ((wt src).run net dst).1.2, buf := buf,
         written := 0 },
       ((wt src).run net dst).2)
    | none => copyLoop net rd fuel { src := src, dst := dst, buf := buf, written := 0 }

/-- A run of `WriteStream`: where it stands, the client and the reader
afterwards. -/
structure StreamResult (σ κ : Type) where
  status : Status
  client : udpClient κ
  src : σ

/-- The method `WriteStream`. -/
def udpClient.WriteStream {α κ σ : Type} (net : Net α κ) (c : udpClient κ) (rd : Reader σ)
    (r : σ) (size : Int) (fuel : Nat) : StreamResult σ κ :=
  let cp := CopyBuffer net rd c.conn r c.buffer fuel
  let c1 : udpClient κ := { conn := cp.1.dst, buffer := cp.1.buf }
  match cp.2 with
  | .returned n err =>
    if n ≠ size then
      { status := .returned n (some (Errorf
          ("Expected to write " ++ fmtInt size ++ " bytes, only wrote " ++ fmtInt n)))
        client := c1, src := cp.1.src }
    else
      { status := .returned n err, client := c1, src := cp.1.src }
  | s => { status := s, client := c1, src := cp.1.src }

/-- The method `WriteStreamWithParams`. -/
def udpClient.WriteStreamWithParams {α κ σ ω : Type} (net : Net α κ) (c : udpClient κ)
    (rd : Reader σ) (r : σ) (size : Int) (_wp : ω) (fuel : Nat) : StreamResult σ κ :=
  c.WriteStream net rd r size fuel

/-- The count `io.copyBuffer` adds for a send of `nr` bytes that reported `n`. -/
def accepted (nr : Nat) (n : Int) : Int :=
  if n < 0 ∨ (nr : Int) < n then 0 else n

/-- The socket takes every payload whole and reports no error. -/
def Accepts {α κ : Type} (net : Net α κ) : Prop :=
  ∀ k b, (net.connWrite k b).n = b.length ∧ (net.connWrite k b).err = none

/-! ## Sources that end -/

/-- The reads of a source from state `s` into a buffer of `P` bytes, in order,
up to and including the first one that reports `EOF`: every read before it
reports no error, and every read stores at most `P` bytes (possibly none). -/
inductive Yields {σ : Type} (rd : Reader σ) (P : Nat) : σ → List (List Byte) → Prop
  | eof (s : σ) : (rd.Read s P).err = some GoError.EOF → (rd.Read s P).data.length ≤ P →
      Yields rd P s [(rd.Read s P).data]
  | more (s : σ) (ds : List (List Byte)) : (rd.Read s P).err = none →
      (rd.Read s P).data.length ≤ P → Yields rd P (rd.Read s P).next ds →
      Yields rd P s ((rd.Read s P).data :: ds)

/-- A source of content `content` that fills the buffer of `P` bytes on every
read while data remains, and then reports `EOF` (with the last bytes or on a
read of its own). -/
inductive FullReads {σ : Type} (rd : Reader σ) (P : Nat) : σ → List Byte → Prop
  | done (s : σ) : (rd.Read s P).data = [] → (rd.Read s P).err = some GoError.EOF →
      FullReads rd P s []
  | last (s : σ) (content : List Byte) : content ≠ [] → content.length ≤ P →
      (rd.Read s P).data = content → (rd.Read s P).err = some GoError.EOF →
      FullReads rd P s content
  | step (s : σ) (content : List Byte) : content ≠ [] →
      (rd.Read s P).data = content.take P → (rd.Read s P).err = none →
      FullReads rd P (rd.Read s P).next (content.drop P) → FullReads rd P s content

/-- The read the copy loop makes next in state `st`. -/
def nextRead {σ κ : Type} (rd : Reader σ) (st : CopyState σ κ) : ReadResult σ :=
  rd.Read st.src st.buf.length

/-- What the socket answers to the bytes of the next read. -/
def nextSend {α κ σ : Type} (net : Net α κ) (rd : Reader σ) (st : CopyState σ κ) :
    WriteResult κ :=
  net.connWrite st.dst.sock (nextRead rd st).data

/-- The next read fails with `e`, which is not `EOF`, and the bytes it
returned with the error, if any, are taken whole by the socket. -/
def ReadFails {α κ σ : Type} (net : Net α κ) (rd : Reader σ) (st : CopyState σ κ)
    (e : GoError) : Prop :=
  (nextRead rd st).err = some e ∧ e ≠ GoError.EOF ∧
    ((nextRead rd st).data = [] ∨
      ((nextSend net rd st).n = (nextRead rd st).data.length ∧ (nextSend net rd st).err = none))

/-- The next read returns bytes and the send of them fails with `e`. -/
def SendFails {α κ σ : Type} (net : Net α κ) (rd : Reader σ) (st : CopyState σ κ)
    (e : GoError) : Prop :=
  (nextRead rd st).data ≠ [] ∧ (nextSend net rd st).err = some e

/-- The bytes written once the next iteration is over: those written before
it and those the socket took of its send, if it sends. -/
def countAfter {α κ σ : Type} (net : Net α κ) (rd : Reader σ) (st : CopyState σ κ) : Int :=
  st.written + if (nextRead rd st).data = [] then 0
    else accepted (nextRead rd st).data.length (nextSend net rd st).n

/-- The text of the error `WriteStream` builds when the count is not the
declared size. -/
def mismatchText (size n : Int) : String :=
  "Expected to write " ++ fmtInt size ++ " bytes, only wrote " ++ fmtInt n

/-- On a socket that takes every payload, the `WriteTo` program makes the
writes `ws`, in order, and then returns `(n, nil)`. -/
inductive WritesOut {σ : Type} : WriteToProg σ → Int → List (List Byte) → Prop
  | ret (n : Int) (next : σ) : WritesOut (.ret n none next) n []
  | write (b : List Byte) (k : Int → Option GoError → WriteToProg σ) (n : Int)
      (ws : List (List Byte)) :
      WritesOut (k b.length none) n ws → WritesOut (.write b k) n (b :: ws)

/-- The count a run has returned, if it has returned. -/
def Status.count : Status → Option Int
  | .returned n _ => some n
  | _ => none

/-- The error a run has returned (`none` is Go's `nil`), if it has returned. -/
def Status.err : Status → Option (Option GoError)
  | .returned _ e => some e
  | _ => none

/-- The clients a program can hold: the one `NewUDP` returned for `config`,
and the client after any further call of a method, whatever the call
returned. A stream write is observed after any number of iterations of its
copy loop, so a write that fails, panics or never ends is covered. `ω` is the
type `WriteParams`. -/
inductive Reachable {α κ : Type} (ω : Type) (net : Net α κ) (config : UDPConfig) :
    udpClient κ → Prop
  | init (c : udpClient κ) :
      (NewUDP net config).outcome = .returned (some c, none) → Reachable ω net config c
  | query (c : udpClient κ) (command : String) :
      Reachable ω net config c → Reachable ω net config (c.Query command).2
  | write (c : udpClient κ) (b : List Byte) :
      Reachable ω net config c → Reachable ω net config (c.Write net b).2
  | writeWithParams (c : udpClient κ) (b : List Byte) (wp : ω) :
      Reachable ω net config c → Reachable ω net config (c.WriteWithParams net b wp).2
  | writeStream {σ : Type} (c : udpClient κ) (rd : Reader σ) (r : σ) (size : Int) (fuel : Nat) :
      Reachable ω net config c →
      Reachable ω net config (c.WriteStream net rd r size fuel).client
  | writeStreamWithParams {σ : Type} (c : udpClient κ) (rd : Reader σ) (r : σ) (size : Int)
      (wp : ω) (fuel : Nat) :
      Reachable ω net config c →
      Reachable ω net config (c.WriteStreamWithParams net rd r size wp fuel).client

/-! ## Concrete worlds and readers used in examples -/

/-- A socket that accepts every payload whole. -/
def acceptAll : Unit → List Byte → WriteResult Unit :=
  fun _ b => { n := b.length, err := none, next := () }

/-- A world in which every stage of construction succeeds. -/
def goodNet : Net String Unit where
  Parse := fun raw => .ok { Host := raw }
  ResolveUDPAddr := fun host => .ok host
  AddrString := fun a => a
  DialUDP := fun _ => .ok ()
  connWrite := acceptAll
  maxAlloc := 281474976710656

/-- A reader over a byte sequence that fills `p` as far as data remains. -/
def sliceReader : Reader (List Byte) where
  Read := fun s len =>
    if s = [] then { data := [], err := some GoError.EOF, next := [] }
    else { data := s.take len, err := none, next := s.drop len }

/-- A reader over a byte sequence that hands out one byte per call. -/
def oneByteReader : Reader (List Byte) where
  Read := fun s len =>
    match s with
    | [] => { data := [], err := some GoError.EOF, next := [] }
    | x :: xs => if len = 0 then { data := [], err := none, next := x :: xs }
                 else { data := [x], err := none, next := xs }

/-- A `*bytes.Reader` over a byte sequence: `Read` copies as much of the rest
as `p` holds; `WriteTo` hands the whole rest to the writer in one `Write`
(for a count `m` the writer reports with `0 ≤ m`). -/
def bytesReader : Reader (List Byte) where
  Read := fun s len =>
    if s = [] then { data := [], err := some GoError.EOF, next := [] }
    else { data := s.take len, err := none, next := s.drop len }
  WriteTo := some (fun s =>
    if s = [] then .ret 0 none s
    else .write s (fun m err =>
      if (s.length : Int) < m then .panic "bytes.Reader.WriteTo: invalid Write count" s
      else .ret m (if m ≠ (s.length : Int) ∧ err = none then some GoError.ErrShortWrite else err)
        (s.drop m.toNat)))

/-- A reader that plays back a script: each call returns the next pair of
bytes and error, and `EOF` once the script is over. -/
def scriptReader : Reader (List (List Byte × Option GoError)) where
  Read := fun s _ =>
    match s with
    | [] => { data := [], err := some GoError.EOF, next := [] }
    | (d, e) :: rest => { data := d, err := e, next := rest }

/-- A reader that fails at once with the given error. -/
def failingReader (e : GoError) : Reader Unit where
  Read := fun _ _ => { data := [], err := some e, next := () }

/-- A world whose stages of construction fail as given (`none`: the stage
succeeds) and whose socket takes every payload. -/
def stageNet (parseErr resolveErr dialErr : Option GoError) : Net String Unit where
  Parse := fun raw =>
    match parseErr with
    | some e => .error e
    | none => .ok { Host := raw }
  ResolveUDPAddr := fun host =>
    match resolveErr with
    | some e => .error e
    | none => .ok host
  AddrString := fun a => a
  DialUDP := fun _ =>
    match dialErr with
    | some e => .error e
    | none => .ok ()
  connWrite := acceptAll
  maxAlloc := 281474976710656

/-- A world in which construction succeeds and every send fails with `e`,
no byte taken. -/
def refusingNet (e : GoError) : Net String Unit where
  Parse := fun raw => .ok { Host := raw }
  ResolveUDPAddr := fun host => .ok host
  AddrString := fun a => a
  DialUDP := fun _ => .ok ()
  connWrite := fun _ _ => { n := 0, err := some e, next := () }
  maxAlloc := 281474976710656

/-- A world in which construction succeeds and the socket takes one payload
whole and fails every later send with `e`, no byte taken; the state of the
socket is the number of sends it still takes. -/
def flakyNet (e : GoError) : Net String Nat where
  Parse := fun raw => .ok { Host := raw }
  ResolveUDPAddr := fun host => .ok host
  AddrString := fun a => a
  DialUDP := fun _ => .ok 1
  connWrite := fun left b =>
    match left with
    | 0 => { n := 0, err := some e, next := 0 }
    | k + 1 => { n := b.length, err := none, next := k }
  maxAlloc := 281474976710656

/-- The client `NewUDP` builds in `flakyNet` for a payload size of `n` bytes. -/
def flakyClient (n : Nat) : udpClient Nat :=
  { conn := { sock := 1, sent := [] }, buffer := List.replicate n 0 }

/-- The client `NewUDP` builds in `goodNet` for a payload size of `n` bytes. -/
def freshClient (n : Nat) : udpClient Unit :=
  { conn := { sock := (), sent := [] }, buffer := List.replicate n 0 }

/-- The bytes of the text `hello-metric`. -/
def helloMetric : List Byte := [104, 101, 108, 108, 111, 45, 109, 101, 116, 114, 105, 99]

/-! ## The copy loop -/

theorem take_data_append (d rest : List Byte) : (d ++ rest).take d.length = d := by
  simp

theorem copyIter_buf_length {α κ σ : Type} (net : Net α κ) (rd : Reader σ)
    (st : CopyState σ κ) : (copyIter net rd st).1.buf.length = st.buf.length := by
  unfold copyIter
  dsimp only
  repeat' split
  all_goals first | rfl | (simp; omega)

theorem copyIter_empty {α κ σ : Type} (net : Net α κ) (rd : Reader σ) (st : CopyState σ κ)
    (hd : (rd.Read st.src st.buf.length).data = []) :
    copyIter net rd st =
      ({ st with src := (rd.Read st.src st.buf.length).next },
       readErrStatus (rd.Read st.src st.buf.length).err st.written) := by
  unfold copyIter
  simp [hd]

theorem copyIter_send {α κ σ : Type} (net : Net α κ) (rd : Reader σ) (st : CopyState σ κ)
    (hpos : (rd.Read st.src st.buf.length).data ≠ [])
    (hle : (rd.Read st.src st.buf.length).data.length ≤ st.buf.length)
    (hn : (net.connWrite st.dst.sock (rd.Read st.src st.buf.length).data).n
        = (rd.Read st.src st.buf.length).data.length)
    (he : (net.connWrite st.dst.sock (rd.Read st.src st.buf.length).data).err = none) :
    copyIter net rd st =
      ({ src := (rd.Read st.src st.buf.length).next
         dst := { sock := (net.connWrite st.dst.sock (rd.Read st.src st.buf.length).data).next
                  sent := st.dst.sent ++ [(rd.Read st.src st.buf.length).data] }
         buf := (rd.Read st.src st.buf.length).data
                  ++ st.buf.drop (rd.Read st.src st.buf.length).data.length
         written := st.written + (rd.Read st.src st.buf.length).data.length },
       readErrStatus (rd.Read st.src st.buf.length).err
         (st.written + (rd.Read st.src st.buf.length).data.length)) := by
  have hlen : 0 < (rd.Read st.src st.buf.length).data.length := List.length_pos.mpr hpos
  have hnn : ¬ (((rd.Read st.src st.buf.length).data.length : Int) < 0) := by omega
  unfold copyIter
  simp [UDPConn.Write, hn, he, hlen, hnn, Nat.not_lt.mpr hle]

theorem copyIter_send_error {α κ σ : Type} (net : Net α κ) (rd : Reader σ)
    (st : CopyState σ κ) (e : GoError)
    (hpos : (rd.Read st.src st.buf.length).data ≠ [])
    (hle : (rd.Read st.src st.buf.length).data.length ≤ st.buf.length)
    (he : (net.connWrite st.dst.sock (rd.Read st.src st.buf.length).data).err = some e) :
    copyIter net rd st =
      ({ src := (rd.Read st.src st.buf.length).next
         dst := { sock := (net.connWrite st.dst.sock (rd.Read st.src st.buf.length).data).next
                  sent := st.dst.sent ++ [(rd.Read st.src st.buf.length).data] }
         buf := (rd.Read st.src st.buf.length).data
                  ++ st.buf.drop (rd.Read st.src st.buf.length).data.length
         written := st.written + accepted (rd.Read st.src st.buf.length).data.length
           (net.connWrite st.dst.sock (rd.Read st.src st.buf.length).data).n },
       .returned (st.written + accepted (rd.Read st.src st.buf.length).data.length
           (net.connWrite st.dst.sock (rd.Read st.src st.buf.length).data).n) (some e)) := by
  have hlen : 0 < (rd.Read st.src st.buf.length).data.length := List.length_pos.mpr hpos
  unfold copyIter
  simp [UDPConn.Write, he, hlen, Nat.not_lt.mpr hle, accepted]

theorem copyLoop_succ_running {α κ σ : Type} (net : Net α κ) (rd : Reader σ) (fuel : Nat)
    (st st1 : CopyState σ κ) (h : copyIter net rd st = (st1, .running)) :
    copyLoop net rd (fuel + 1) st = copyLoop net rd fuel st1 := by
  simp only [copyLoop, h]

theorem copyLoop_succ_done {α κ σ : Type} (net : Net α κ) (rd : Reader σ) (fuel : Nat)
    (st st1 : CopyState σ κ) (s : Status) (h : copyIter net rd st = (st1, s))
    (hs : s ≠ .running) : copyLoop net rd (fuel + 1) st = (st1, s) := by
  cases s with
  | running => exact absurd rfl hs
  | returned n e => simp only [copyLoop, h]
  | panicked m => simp only [copyLoop, h]

theorem copyLoop_buf_length {α κ σ : Type} (net : Net α κ) (rd : Reader σ) (fuel : Nat) :
    ∀ st : CopyState σ κ, (copyLoop net rd fuel st).1.buf.length = st.buf.length := by
  induction fuel with
  | zero => intro st; rfl
  | succ f ih =>
    intro st
    have h := copyIter_buf_length net rd st
    rcases hit : copyIter net rd st with ⟨st1, s⟩
    rw [hit] at h
    by_cases hs : s = .running
    · subst hs
      rw [copyLoop_succ_running net rd f st st1 hit, ih]
      exact h
    · rw [copyLoop_succ_done net rd f st st1 s hit hs]
      exact h

theorem copyLoop_running_add {α κ σ : Type} (net : Net α κ) (rd : Reader σ) (k : Nat) :
    ∀ (st0 st : CopyState σ κ) (j : Nat), copyLoop net rd k st0 = (st, .running) →
      copyLoop net rd (k + j) st0 = copyLoop net rd j st := by
  induction k with
  | zero =>
    intro st0 st j h
    simp only [copyLoop, Prod.mk.injEq, and_true] at h
    simp [h]
  | succ k ih =>
    intro st0 st j h
    rw [Nat.succ_add]
    rcases hit : copyIter net rd st0 with ⟨st1, s⟩
    by_cases hs : s = .running
    · subst hs
      rw [copyLoop_succ_running net rd _ st0 st1 hit] at h ⊢
      exact ih st1 st j h
    · rw [copyLoop_succ_done net rd _ st0 st1 s hit hs] at h
      exact absurd (congrArg Prod.snd h) hs

theorem copyLoop_done_add {α κ σ : Type} (net : Net α κ) (rd : Reader σ) (k : Nat) :
    ∀ (st0 st : CopyState σ κ) (s : Status) (j : Nat), s ≠ .running →
      copyLoop net rd k st0 = (st, s) → copyLoop net rd (k + j) st0 = (st, s) := by
  induction k with
  | zero =>
    intro st0 st s j hs h
    simp only [copyLoop, Prod.mk.injEq] at h
    exact absurd h.2.symm hs
  | succ k ih =>
    intro st0 st s j hs h
    rw [Nat.succ_add]
    rcases hit : copyIter net rd st0 with ⟨st1, s1⟩
    by_cases hs1 : s1 = .running
    · subst hs1
      rw [copyLoop_succ_running net rd _ st0 st1 hit] at h ⊢
      exact ih st1 st s j hs h
    · rw [copyLoop_succ_done net rd _ st0 st1 s1 hit hs1] at h ⊢
      exact h

theorem readErrStatus_eof (w : Int) : readErrStatus (some GoError.EOF) w = .returned w none := by
  simp [readErrStatus]

theorem readErrStatus_none (w : Int) : readErrStatus none w = .running := rfl

theorem readErrStatus_error (e : GoError) (he : e ≠ GoError.EOF) (w : Int) :
    readErrStatus (some e) w = .returned w (some e) := by
  simp [readErrStatus, he]

/-- One iteration on a read of at most `len(buf)` bytes when the socket takes
every payload: the bytes, if any, are sent as one payload and counted, and the
loop goes on or stops as the read error says. -/
theorem copyIter_accepts {α κ σ : Type} (net : Net α κ) (rd : Reader σ) (hacc : Accepts net)
    (st : CopyState σ κ)
    (hle : (rd.Read st.src st.buf.length).data.length ≤ st.buf.length) :
    (copyIter net rd st).2 = readErrStatus (rd.Read st.src st.buf.length).err
        (st.written + (rd.Read st.src st.buf.length).data.length) ∧
    (copyIter net rd st).1.src = (rd.Read st.src st.buf.length).next ∧
    (copyIter net rd st).1.written = st.written + (rd.Read st.src st.buf.length).data.length ∧
    (copyIter net rd st).1.dst.sent = st.dst.sent ++
        [(rd.Read st.src st.buf.length).data].filter (fun d => decide (d ≠ [])) := by
  by_cases hd : (rd.Read st.src st.buf.length).data = []
  · rw [copyIter_empty net rd st hd]
    simp [hd]
  · rw [copyIter_send net rd st hd hle (hacc _ _).1 (hacc _ _).2]
    simp [hd]

/-- With a socket that takes every payload, the copy of a source that ends
returns within as many iterations as the source has reads, with the number of
bytes read and no error, having sent exactly the non-empty reads in order. -/
theorem copyLoop_yields {α κ σ : Type} (net : Net α κ) (rd : Reader σ) (hacc : Accepts net)
    (P : Nat) (s : σ) (reads : List (List Byte)) (hy : Yields rd P s reads) :
    ∀ (st : CopyState σ κ), st.src = s → st.buf.length = P →
      ∀ fuel, reads.length ≤ fuel →
        (copyLoop net rd fuel st).2 = .returned (st.written + reads.flatten.length) none ∧
        (copyLoop net rd fuel st).1.dst.sent
          = st.dst.sent ++ reads.filter (fun d => decide (d ≠ [])) := by
  induction hy with
  | eof s herr hlen =>
    intro st hs hb fuel hf
    subst hs
    subst hb
    obtain ⟨f, rfl⟩ : ∃ f, fuel = f + 1 := ⟨fuel - 1, by simp at hf; omega⟩
    obtain ⟨h2, -, -, h4⟩ := copyIter_accepts net rd hacc st hlen
    rw [herr, readErrStatus_eof] at h2
    rcases hit : copyIter net rd st with ⟨st1, s1⟩
    rw [hit] at h2 h4
    simp only at h2 h4
    subst h2
    rw [copyLoop_succ_done net rd f st st1 _ hit (by simp)]
    refine ⟨by simp, ?_⟩
    simpa using h4
  | more s ds herr hlen _ ih =>
    intro st hs hb fuel hf
    subst hs
    subst hb
    obtain ⟨f, rfl⟩ : ∃ f, fuel = f + 1 := ⟨fuel - 1, by simp at hf; omega⟩
    obtain ⟨h2, h1, h3, h4⟩ := copyIter_accepts net rd hacc st hlen
    rw [herr, readErrStatus_none] at h2
    have hbl := copyIter_buf_length net rd st
    rcases hit : copyIter net rd st with ⟨st1, s1⟩
    rw [hit] at h1 h2 h3 h4 hbl
    simp only at h1 h2 h3 h4 hbl
    subst h2
    rw [copyLoop_succ_running net rd f st st1 hit]
    obtain ⟨r1, r2⟩ := ih st1 h1 hbl f (by simp at hf; omega)
    rw [r1, r2, h3, h4]
    constructor
    · simp [Int.add_assoc]
    · simp only [List.filter_cons, List.append_assoc]
      split <;> simp

theorem ceil_div_step (L P : Nat) (hL : 0 < L) (hP : 0 < P) :
    (L + P - 1) / P = (L - P + P - 1) / P + 1 := by
  by_cases h : P ≤ L
  · have e1 : L - P + P - 1 = L - 1 := by omega
    have e2 : L + P - 1 = L - 1 + P := by omega
    rw [e1, e2, Nat.add_div_right _ hP]
  · have e1 : L - P + P - 1 = P - 1 := by omega
    have e2 : L + P - 1 = L - 1 + P := by omega
    rw [e1, e2, Nat.add_div_right _ hP, Nat.div_eq_of_lt (by omega), Nat.div_eq_of_lt (by omega)]

theorem flatten_filter_nonempty (reads : List (List Byte)) :
    (reads.filter (fun d => decide (d ≠ []))).flatten = reads.flatten := by
  induction reads with
  | nil => rfl
  | cons d ds ih =>
    have ih1 : (List.filter (fun d => !decide (d = [])) ds).flatten = ds.flatten := by
      simpa using ih
    by_cases hd : d = []
    · simp [hd, ih1]
    · simp [hd, ih1]

/-- A source that fills the buffer on every read has `ceil(L/P)` non-empty
reads, which make up its content, and at most `L + 1` reads in all. -/
theorem fullReads_yields {σ : Type} (rd : Reader σ) (P : Nat) (hP : 0 < P) (s : σ)
    (content : List Byte) (h : FullReads rd P s content) :
    ∃ reads, Yields rd P s reads ∧ reads.flatten = content ∧
      (reads.filter (fun d => decide (d ≠ []))).length = (content.length + P - 1) / P ∧
      reads.length ≤ content.length + 1 ∧ ∀ d ∈ reads, d.length ≤ P := by
  induction h with
  | done s hd herr =>
    refine ⟨[(rd.Read s P).data], Yields.eof s herr (by simp [hd]), by simp [hd], ?_, by simp, ?_⟩
    · simp [hd, Nat.div_eq_of_lt (show P - 1 < P by omega)]
    · simp [hd]
  | last s content hne hle hd herr =>
    have hpos : 0 < content.length := List.length_pos.mpr hne
    refine ⟨[(rd.Read s P).data], Yields.eof s herr (by simp [hd, hle]), by simp [hd], ?_,
      by simp, ?_⟩
    · have e : content.length + P - 1 = content.length - 1 + P := by omega
      simp [hd, hne, e, Nat.add_div_right _ hP, Nat.div_eq_of_lt (show content.length - 1 < P by omega)]
    · simp [hd, hle]
  | step s content hne hd herr _ ih =>
    have hpos : 0 < content.length := List.length_pos.mpr hne
    obtain ⟨reads, hy, hfl, hcnt, hlen, hall⟩ := ih
    have htake : content.take P ≠ [] := by
      intro hc
      have h0 : (content.take P).length = 0 := by rw [hc]; rfl
      rw [List.length_take] at h0
      omega
    refine ⟨(rd.Read s P).data :: reads, Yields.more s reads herr (by simp [hd]) hy, ?_, ?_, ?_, ?_⟩
    · simp [hd, hfl]
    · rw [hd]
      simp only [List.filter_cons, htake, ne_eq, not_false_eq_true, decide_True, ite_true,
        List.length_cons]
      rw [hcnt, List.length_drop]
      exact (ceil_div_step content.length P hpos hP).symm
    · simp only [List.length_cons]
      rw [List.length_drop] at hlen
      omega
    · intro d hdm
      rcases List.mem_cons.mp hdm with h1 | h1
      · rw [h1, hd]
        simp
      · exact hall d h1

/-! ## `WriteStream` in terms of the copy loop -/

theorem CopyBuffer_eq_copyLoop {α κ σ : Type} (net : Net α κ) (rd : Reader σ) (dst : UDPConn κ)
    (src : σ) (buf : List Byte) (fuel : Nat) (hbuf : buf ≠ []) (hwt : rd.WriteTo = none) :
    CopyBuffer net rd dst src buf fuel
      = copyLoop net rd fuel { src := src, dst := dst, buf := buf, written := 0 } := by
  have : buf.length ≠ 0 := fun h => hbuf (List.length_eq_zero.mp h)
  simp [CopyBuffer, this, hwt]

theorem CopyBuffer_eq_writeTo {α κ σ : Type} (net : Net α κ) (rd : Reader σ) (dst : UDPConn κ)
    (src : σ) (buf : List Byte) (fuel : Nat) (wt : σ → WriteToProg σ) (hbuf : buf ≠ [])
    (hwt : rd.WriteTo = some wt) :
    CopyBuffer net rd dst src buf fuel
      = ({ src := ((wt src).run net dst).1.1, dst := ((wt src).run net dst).1.2, buf := buf,
           written := 0 },
         ((wt src).run net dst).2) := by
  have : buf.length ≠ 0 := fun h => hbuf (List.length_eq_zero.mp h)
  simp [CopyBuffer, this, hwt]

/-- On a socket that takes every payload, a `WriteTo` that makes the writes
`ws` and returns `(n, nil)` does so: the run returns `(n, nil)` and the socket
has been handed exactly `ws`. -/
theorem run_writesOut {α κ σ : Type} (net : Net α κ) (hacc : Accepts net)
    (prog : WriteToProg σ) (n : Int) (ws : List (List Byte)) (h : WritesOut prog n ws) :
    ∀ dst : UDPConn κ, (prog.run net dst).2 = .returned n none ∧
      (prog.run net dst).1.2.sent = dst.sent ++ ws := by
  induction h with
  | ret n next =>
    intro dst
    simp [WriteToProg.run]
  | write b k n ws _ ih =>
    intro dst
    have h1 : (dst.Write net b).n = b.length := (hacc dst.sock b).1
    have h2 : (dst.Write net b).err = none := (hacc dst.sock b).2
    simp only [WriteToProg.run, h1, h2]
    obtain ⟨r1, r2⟩ := ih (dst.Write net b).next
    refine ⟨r1, ?_⟩
    rw [r2]
    simp [UDPConn.Write]

theorem WriteStream_client {α κ σ : Type} (net : Net α κ) (c : udpClient κ) (rd : Reader σ)
    (r : σ) (size : Int) (fuel : Nat) :
    (c.WriteStream net rd r size fuel).client
      = { conn := (CopyBuffer net rd c.conn r c.buffer fuel).1.dst
          buffer := (CopyBuffer net rd c.conn r c.buffer fuel).1.buf } := by
  unfold udpClient.WriteStream
  dsimp only
  repeat' split
  all_goals rfl

theorem WriteStream_src {α κ σ : Type} (net : Net α κ) (c : udpClient κ) (rd : Reader σ)
    (r : σ) (size : Int) (fuel : Nat) :
    (c.WriteStream net rd r size fuel).src = (CopyBuffer net rd c.conn r c.buffer fuel).1.src := by
  unfold udpClient.WriteStream
  dsimp only
  repeat' split
  all_goals rfl

theorem WriteStream_returned {α κ σ : Type} (net : Net α κ) (c : udpClient κ) (rd : Reader σ)
    (r : σ) (size : Int) (fuel : Nat) (n : Int) (err : Option GoError)
    (h : (CopyBuffer net rd c.conn r c.buffer fuel).2 = .returned n err) :
    (c.WriteStream net rd r size fuel).status
      = .returned n (if n = size then err else some (GoError.errorf
          ("Expected to write " ++ fmtInt size ++ " bytes, only wrote " ++ fmtInt n))) := by
  unfold udpClient.WriteStream
  dsimp only
  rw [h]
  dsimp only
  by_cases hn : n = size
  · simp [hn]
  · simp [hn, Errorf]

theorem WriteStream_not_returned {α κ σ : Type} (net : Net α κ) (c : udpClient κ)
    (rd : Reader σ) (r : σ) (size : Int) (fuel : Nat)
    (h : ∀ n err, (CopyBuffer net rd c.conn r c.buffer fuel).2 ≠ .returned n err) :
    (c.WriteStream net rd r size fuel).status = (CopyBuffer net rd c.conn r c.buffer fuel).2 := by
  unfold udpClient.WriteStream
  dsimp only
  split
  · next n err heq => exact absurd heq (h n err)
  · rfl

/-! ## Construction -/

/-- When every stage succeeds and the payload size to use (`PayloadSize`, or
512 when it is zero) is neither negative nor above the allocation limit,
`NewUDP` returns a client on the dialed socket whose buffer has that many
bytes. -/
theorem NewUDP_ok {α κ : Type} (net : Net α κ) (config : UDPConfig) (p : URL) (a : α) (k : κ)
    (hp : net.Parse config.URL = .ok p) (hr : net.ResolveUDPAddr p.Host = .ok a)
    (hd : net.DialUDP a = .ok k) (hs : 0 ≤ config.PayloadSize)
    (hmax : (if config.PayloadSize = 0 then UDPPayloadSize else config.PayloadSize)
      ≤ net.maxAlloc) :
    (NewUDP net config).outcome = .returned
      (some { conn := { sock := k, sent := [] }
              buffer := List.replicate
                (if config.PayloadSize = 0 then UDPPayloadSize else config.PayloadSize).toNat 0 },
       none) := by
  have hm : makeBytes net.maxAlloc
      (if config.PayloadSize = 0 then UDPPayloadSize else config.PayloadSize)
      = some (List.replicate
          (if config.PayloadSize = 0 then UDPPayloadSize else config.PayloadSize).toNat 0) := by
    unfold makeBytes
    have h1 : ¬ (if config.PayloadSize = 0 then UDPPayloadSize else config.PayloadSize) < 0 := by
      unfold UDPPayloadSize
      split <;> omega
    have h2 : ¬ (net.maxAlloc : Int)
        < (if config.PayloadSize = 0 then UDPPayloadSize else config.PayloadSize) := by
      omega
    simp only [h1, h2, or_self, if_false]
  simp only [NewUDP, hp, hr, hd, hm]

/-- When every stage succeeds and `PayloadSize` is above the allocation limit,
`make` panics after the socket was opened. -/
theorem NewUDP_over_limit_panics {α κ : Type} (net : Net α κ) (config : UDPConfig) (p : URL)
    (a : α) (k : κ) (hp : net.Parse config.URL = .ok p)
    (hr : net.ResolveUDPAddr p.Host = .ok a) (hd : net.DialUDP a = .ok k)
    (hs : (net.maxAlloc : Int) < config.PayloadSize) :
    (NewUDP net config).outcome = .panicked "runtime error: makeslice: len out of range" ∧
    (NewUDP net config).opened = [k] := by
  have h0 : config.PayloadSize ≠ 0 := by omega
  have hm : makeBytes net.maxAlloc
      (if config.PayloadSize = 0 then UDPPayloadSize else config.PayloadSize) = none := by
    simp [makeBytes, h0, hs]
  constructor <;> simp only [NewUDP, hp, hr, hd, hm]

/-- A client that `NewUDP` returned has a buffer of `PayloadSize` bytes when
`PayloadSize` is positive and of 512 bytes otherwise. -/
theorem NewUDP_returned_buffer {α κ : Type} (net : Net α κ) (config : UDPConfig)
    (c : udpClient κ) (h : (NewUDP net config).outcome = .returned (some c, none)) :
    (c.buffer.length : Int)
      = if config.PayloadSize > 0 then config.PayloadSize else UDPPayloadSize := by
  rcases h1 : net.Parse config.URL with err | p
  · simp [NewUDP, h1] at h
  · rcases h2 : net.ResolveUDPAddr p.Host with err | a
    · simp [NewUDP, h1, h2] at h
    · rcases h3 : net.DialUDP a with err | k
      · simp [NewUDP, h1, h2, h3] at h
      · by_cases hneg :
            (if config.PayloadSize = 0 then UDPPayloadSize else config.PayloadSize) < 0 ∨
            (net.maxAlloc : Int)
              < (if config.PayloadSize = 0 then UDPPayloadSize else config.PayloadSize)
        · have hm : makeBytes net.maxAlloc
              (if config.PayloadSize = 0 then UDPPayloadSize else config.PayloadSize)
              = none := by
            simp only [makeBytes, hneg, if_true]
          simp [NewUDP, h1, h2, h3, hm] at h
        · have hm : makeBytes net.maxAlloc
              (if config.PayloadSize = 0 then UDPPayloadSize else config.PayloadSize)
              = some (List.replicate
                (if config.PayloadSize = 0 then UDPPayloadSize else config.PayloadSize).toNat
                0) := by
            simp only [makeBytes, hneg, if_false]
          simp only [NewUDP, h1, h2, h3, hm, Outcome.returned.injEq, Prod.mk.injEq,
            Option.some.injEq, and_true] at h
          subst h
          simp only [List.length_replicate]
          have hnn : ¬ (if config.PayloadSize = 0 then UDPPayloadSize else config.PayloadSize)
              < 0 := fun hc => hneg (Or.inl hc)
          unfold UDPPayloadSize at hnn ⊢
          split_ifs at hnn ⊢ <;> omega

/-- C3 (the code at the failing input): when every stage of construction
succeeds and `PayloadSize` is negative, `NewUDP` does not return a client with
a 512-byte buffer: `make` panics, after the socket was opened. -/
theorem NewUDP_negative_panics {α κ : Type} (net : Net α κ) (config : UDPConfig) (p : URL)
    (a : α) (k : κ) (hp : net.Parse config.URL = .ok p)
    (hr : net.ResolveUDPAddr p.Host = .ok a) (hd : net.DialUDP a = .ok k)
    (hs : config.PayloadSize < 0) :
    (NewUDP net config).outcome = .panicked "runtime error: makeslice: len out of range" ∧
    (NewUDP net config).opened = [k] := by
  have h0 : config.PayloadSize ≠ 0 := by omega
  have hm : makeBytes net.maxAlloc
      (if config.PayloadSize = 0 then UDPPayloadSize else config.PayloadSize) = none := by
    simp [makeBytes, h0, hs]
  constructor <;> simp only [NewUDP, hp, hr, hd, hm]

/-- C3, at a concrete input: `PayloadSize = -1` on an endpoint that parses,
resolves and dials. -/
theorem NewUDP_negative_panics_witness :
    (NewUDP goodNet { URL := "udp://127.0.0.1:9999", PayloadSize := -1 }).outcome
      = .panicked "runtime error: makeslice: len out of range" ∧
    (NewUDP goodNet { URL := "udp://127.0.0.1:9999", PayloadSize := -1 }).opened = [()] :=
  NewUDP_negative_panics goodNet { URL := "udp://127.0.0.1:9999", PayloadSize := -1 }
    { Host := "udp://127.0.0.1:9999" } "udp://127.0.0.1:9999" () rfl rfl rfl (by decide)

/-- C8: construction is staged parse, resolve, dial and stops at the first
stage that fails. A parse failure returns the error "Error parsing UDP url
[URL]: cause" after the one call to the parser; a resolve failure returns
"Error resolving UDP Address [host]: cause" after parse and resolve; a dial
failure returns "Error dialing UDP address [address]: cause" after parse,
resolve and dial. `NewUDP` returns an error exactly when one of the stages
fails, and whenever it returns an error it returns no client and has left no
socket open. -/
theorem NewUDP_fail_fast {α κ : Type} (net : Net α κ) (config : UDPConfig) :
    (∀ err, net.Parse config.URL = .error err →
      NewUDP net config =
        { outcome := .returned (none, some (GoError.errorf
            ("Error parsing UDP url [" ++ config.URL ++ "]: " ++ err.Error)))
          calls := [.parse config.URL]
          opened := [] }) ∧
    (∀ p err, net.Parse config.URL = .ok p → net.ResolveUDPAddr p.Host = .error err →
      NewUDP net config =
        { outcome := .returned (none, some (GoError.errorf
            ("Error resolving UDP Address [" ++ p.Host ++ "]: " ++ err.Error)))
          calls := [.parse config.URL, .resolve p.Host]
          opened := [] }) ∧
    (∀ p a err, net.Parse config.URL = .ok p → net.ResolveUDPAddr p.Host = .ok a →
      net.DialUDP a = .error err →
      NewUDP net config =
        { outcome := .returned (none, some (GoError.errorf
            ("Error dialing UDP address [" ++ net.AddrString a ++ "]: " ++ err.Error)))
          calls := [.parse config.URL, .resolve p.Host, .dial a]
          opened := [] }) ∧
    ((∃ c e, (NewUDP net config).outcome = .returned (c, some e)) ↔
      ((∃ err, net.Parse config.URL = .error err) ∨
       (∃ p err, net.Parse config.URL = .ok p ∧ net.ResolveUDPAddr p.Host = .error err) ∨
       (∃ p a err, net.Parse config.URL = .ok p ∧ net.ResolveUDPAddr p.Host = .ok a ∧
          net.DialUDP a = .error err))) ∧
    (∀ c e, (NewUDP net config).outcome = .returned (c, some e) →
      c = none ∧ (NewUDP net config).opened = []) := by
  refine ⟨?_, ?_, ?_, ?_, ?_⟩
  · intro err h
    simp only [NewUDP, h, Errorf]
  · intro p err h1 h2
    simp only [NewUDP, h1, h2, Errorf]
  · intro p a err h1 h2 h3
    simp only [NewUDP, h1, h2, h3, Errorf]
  · rcases h1 : net.Parse config.URL with err | p
    · simp [NewUDP, h1]
    · rcases h2 : net.ResolveUDPAddr p.Host with err | a
      · simp [NewUDP, h1, h2]
      · rcases h3 : net.DialUDP a with err | k
        · simp [NewUDP, h1, h2, h3]
        · rcases h4 : makeBytes net.maxAlloc
            (if config.PayloadSize = 0 then UDPPayloadSize else config.PayloadSize) with _ | buf
          · simp [NewUDP, h1, h2, h3, h4]
          · simp [NewUDP, h1, h2, h3, h4]
  · intro c e h
    rcases h1 : net.Parse config.URL with err | p
    · simp only [NewUDP, h1] at h ⊢
      simp only [Outcome.returned.injEq, Prod.mk.injEq] at h
      exact ⟨h.1.symm, trivial⟩
    · rcases h2 : net.ResolveUDPAddr p.Host with err | a
      · simp only [NewUDP, h1, h2] at h ⊢
        simp only [Outcome.returned.injEq, Prod.mk.injEq] at h
        exact ⟨h.1.symm, trivial⟩
      · rcases h3 : net.DialUDP a with err | k
        · simp only [NewUDP, h1, h2, h3] at h ⊢
          simp only [Outcome.returned.injEq, Prod.mk.injEq] at h
          exact ⟨h.1.symm, trivial⟩
        · rcases h4 : makeBytes net.maxAlloc
            (if config.PayloadSize = 0 then UDPPayloadSize else config.PayloadSize) with _ | buf
          · simp [NewUDP, h1, h2, h3, h4] at h
          · simp [NewUDP, h1, h2, h3, h4] at h

/-- C8, at concrete inputs: a resolver that fails with "no such host" on the
host of a URL that parsed, and a dialer that fails on an address that
resolved. -/
theorem NewUDP_fail_fast_witness :
    NewUDP (stageNet none (some (.external "no such host")) none)
        { URL := "udp://nowhere:1", PayloadSize := 0 } =
      { outcome := .returned (none, some (GoError.errorf
          "Error resolving UDP Address [udp://nowhere:1]: no such host"))
        calls := [.parse "udp://nowhere:1", .resolve "udp://nowhere:1"]
        opened := [] } ∧
    NewUDP (stageNet none none (some (.external "permission denied")))
        { URL := "udp://h:1", PayloadSize := 0 } =
      { outcome := .returned (none, some (GoError.errorf
          "Error dialing UDP address [udp://h:1]: permission denied"))
        calls := [.parse "udp://h:1", .resolve "udp://h:1", .dial "udp://h:1"]
        opened := [] } :=
  ⟨(NewUDP_fail_fast (stageNet none (some (.external "no such host")) none)
      { URL := "udp://nowhere:1", PayloadSize := 0 }).2.1
      { Host := "udp://nowhere:1" } (.external "no such host") rfl rfl,
   (NewUDP_fail_fast (stageNet none none (some (.external "permission denied")))
      { URL := "udp://h:1", PayloadSize := 0 }).2.2.1
      { Host := "udp://h:1" } "udp://h:1" (.external "permission denied") rfl rfl rfl⟩

/-! ## `Query`, `Write` and the parameter variants -/

/-- C7: `Query` returns no error, whatever the command, and the client
afterwards is the client before: the same socket, nothing sent, the same
buffer. -/
theorem Query_no_effect {κ : Type} (c : udpClient κ) (command : String) :
    (c.Query command).1 = none ∧ (c.Query command).2 = c ∧
    (c.Query command).2.conn.sent = c.conn.sent ∧
    (c.Query command).2.conn.sock = c.conn.sock ∧
    (c.Query command).2.buffer = c.buffer :=
  ⟨rfl, rfl, rfl, rfl, rfl⟩

/-- C5: `Write(b)` hands all of `b` to the socket in exactly one send, returns
the count and the error of that send as they are, and leaves the buffer as it
was; when the socket takes all of `b` the count is `len(b)`. -/
theorem Write_single_send {α κ : Type} (net : Net α κ) (c : udpClient κ) (b : List Byte) :
    (c.Write net b).1 = ((net.connWrite c.conn.sock b).n, (net.connWrite c.conn.sock b).err) ∧
    (c.Write net b).2.conn.sent = c.conn.sent ++ [b] ∧
    (c.Write net b).2.conn.sock = (net.connWrite c.conn.sock b).next ∧
    (c.Write net b).2.buffer = c.buffer ∧
    ((net.connWrite c.conn.sock b).n = b.length → (c.Write net b).1.1 = b.length) :=
  ⟨rfl, rfl, rfl, rfl, fun h => h⟩

/-- C5, at the input of the specification: a client built with
`PayloadSize = 16` writes the 12 bytes of "hello-metric" as one packet and
returns 12; 20 bytes, more than the payload size, also go out as one packet. -/
theorem Write_single_send_witness :
    (NewUDP goodNet { URL := "udp://127.0.0.1:9999", PayloadSize := 16 }).outcome
      = .returned (some (freshClient 16), none) ∧
    ((freshClient 16).Write goodNet helloMetric).1 = (12, none) ∧
    ((freshClient 16).Write goodNet helloMetric).2.conn.sent = [helloMetric] ∧
    ((freshClient 16).Write goodNet (List.replicate 20 7)).2.conn.sent
      = [List.replicate 20 7] :=
  ⟨rfl, (Write_single_send goodNet (freshClient 16) helloMetric).1,
   (Write_single_send goodNet (freshClient 16) helloMetric).2.1,
   (Write_single_send goodNet (freshClient 16) (List.replicate 20 7)).2.1⟩

/-- C6: the write parameters are ignored. `WriteWithParams(b, wp)` is
`Write(b)` and `WriteStreamWithParams(r, size, wp)` is `WriteStream(r, size)`:
the same count, error, sends and client afterwards, so any two parameter
values give the same outcome. -/
theorem params_ignored {α κ σ ω : Type} (net : Net α κ) (c : udpClient κ) (b : List Byte)
    (rd : Reader σ) (r : σ) (size : Int) (wp wp2 : ω) (fuel : Nat) :
    c.WriteWithParams net b wp = c.Write net b ∧
    c.WriteStreamWithParams net rd r size wp fuel = c.WriteStream net rd r size fuel ∧
    c.WriteWithParams net b wp = c.WriteWithParams net b wp2 ∧
    c.WriteStreamWithParams net rd r size wp fuel
      = c.WriteStreamWithParams net rd r size wp2 fuel :=
  ⟨rfl, rfl, rfl, rfl⟩

/-! ## `WriteStream` -/

theorem CopyBuffer_buf_length {α κ σ : Type} (net : Net α κ) (rd : Reader σ) (dst : UDPConn κ)
    (src : σ) (buf : List Byte) (fuel : Nat) :
    (CopyBuffer net rd dst src buf fuel).1.buf.length = buf.length := by
  unfold CopyBuffer
  split
  · rfl
  · split
    · rfl
    · exact copyLoop_buf_length net rd fuel _

theorem WriteStream_buffer_length {α κ σ : Type} (net : Net α κ) (c : udpClient κ)
    (rd : Reader σ) (r : σ) (size : Int) (fuel : Nat) :
    (c.WriteStream net rd r size fuel).client.buffer.length = c.buffer.length := by
  rw [WriteStream_client]
  exact CopyBuffer_buf_length net rd c.conn r c.buffer fuel

theorem WriteStream_count {α κ σ : Type} (net : Net α κ) (c : udpClient κ) (rd : Reader σ)
    (r : σ) (size : Int) (fuel : Nat) :
    (c.WriteStream net rd r size fuel).status.count
      = (CopyBuffer net rd c.conn r c.buffer fuel).2.count := by
  rcases hcp : (CopyBuffer net rd c.conn r c.buffer fuel).2 with _ | ⟨n, err⟩ | m
  · rw [WriteStream_not_returned net c rd r size fuel (by simp [hcp]), hcp]
  · rw [WriteStream_returned net c rd r size fuel n err hcp]
    rfl
  · rw [WriteStream_not_returned net c rd r size fuel (by simp [hcp]), hcp]

/-- C1: whenever the copy returns a count `n` that is not the declared size,
with an error or without one, `WriteStream` returns `n` and the error
"Expected to write <size> bytes, only wrote <n>". In particular, on a socket
that takes every payload, a source that yields `L` bytes and then `EOF`,
written with the declared size `L + 5`, gives `(L, "Expected to write <L+5>
bytes, only wrote <L>")` as soon as the loop has run once per read; and so
does a source whose own `WriteTo` writes its `L` bytes and returns `(L, nil)`. -/
theorem WriteStream_size_mismatch {α κ σ : Type} (net : Net α κ) (c : udpClient κ)
    (rd : Reader σ) (r : σ) :
    (∀ (size : Int) (fuel : Nat) (n : Int) (err : Option GoError),
      (CopyBuffer net rd c.conn r c.buffer fuel).2 = .returned n err → n ≠ size →
      (c.WriteStream net rd r size fuel).status = .returned n (some (GoError.errorf
        ("Expected to write " ++ fmtInt size ++ " bytes, only wrote " ++ fmtInt n)))) ∧
    (∀ reads : List (List Byte), rd.WriteTo = none → Accepts net → c.buffer ≠ [] →
      Yields rd c.buffer.length r reads → ∀ fuel, reads.length ≤ fuel →
      (c.WriteStream net rd r (reads.flatten.length + 5) fuel).status
        = .returned reads.flatten.length (some (GoError.errorf
            ("Expected to write " ++ fmtInt (reads.flatten.length + 5)
              ++ " bytes, only wrote " ++ fmtInt reads.flatten.length)))) ∧
    (∀ (wt : σ → WriteToProg σ) (ws : List (List Byte)), rd.WriteTo = some wt → Accepts net →
      c.buffer ≠ [] → WritesOut (wt r) ws.flatten.length ws → ∀ fuel,
      (c.WriteStream net rd r (ws.flatten.length + 5) fuel).status
        = .returned ws.flatten.length (some (GoError.errorf
            ("Expected to write " ++ fmtInt (ws.flatten.length + 5)
              ++ " bytes, only wrote " ++ fmtInt ws.flatten.length)))) := by
  have key : ∀ (size : Int) (fuel : Nat) (n : Int) (err : Option GoError),
      (CopyBuffer net rd c.conn r c.buffer fuel).2 = .returned n err → n ≠ size →
      (c.WriteStream net rd r size fuel).status = .returned n (some (GoError.errorf
        ("Expected to write " ++ fmtInt size ++ " bytes, only wrote " ++ fmtInt n))) := by
    intro size fuel n err hcopy hne
    rw [WriteStream_returned net c rd r size fuel n err hcopy]
    simp [hne]
  refine ⟨key, ?_, ?_⟩
  · intro reads hwt hacc hbuf hy fuel hfuel
    have hloop := (copyLoop_yields net rd hacc c.buffer.length r reads hy
      { src := r, dst := c.conn, buf := c.buffer, written := 0 } rfl rfl fuel hfuel).1
    rw [← CopyBuffer_eq_copyLoop net rd c.conn r c.buffer fuel hbuf hwt] at hloop
    simp only [Int.zero_add] at hloop
    exact key _ fuel _ none hloop (by omega)
  · intro wt ws hwt hacc hbuf hw fuel
    have hrun := (run_writesOut net hacc (wt r) _ ws hw c.conn).1
    have hcopy : (CopyBuffer net rd c.conn r c.buffer fuel).2
        = .returned ws.flatten.length none := by
      rw [CopyBuffer_eq_writeTo net rd c.conn r c.buffer fuel wt hbuf hwt]
      exact hrun
    exact key _ fuel _ none hcopy (by omega)

/-- C1, at concrete inputs: a source of 3 bytes read into a 2-byte buffer,
declared as 8 bytes, and a `*bytes.Reader` over the same 3 bytes. -/
theorem WriteStream_size_mismatch_witness :
    ((freshClient 2).WriteStream goodNet sliceReader [1, 2, 3] 8 3).status
      = .returned 3 (some (GoError.errorf "Expected to write 8 bytes, only wrote 3")) ∧
    ((freshClient 2).WriteStream goodNet sliceReader [1, 2, 3] 8 7).status
      = .returned 3 (some (GoError.errorf "Expected to write 8 bytes, only wrote 3")) ∧
    ((freshClient 2).WriteStream goodNet bytesReader [1, 2, 3] 8 0).status
      = .returned 3 (some (GoError.errorf "Expected to write 8 bytes, only wrote 3")) :=
  ⟨(WriteStream_size_mismatch goodNet (freshClient 2) sliceReader [1, 2, 3]).1 8 3 3 none rfl
      (by decide),
   (WriteStream_size_mismatch goodNet (freshClient 2) sliceReader [1, 2, 3]).2.1
      [[1, 2], [3], []] rfl (fun _ _ => ⟨rfl, rfl⟩) (by decide)
      (Yields.more [1, 2, 3] [[3], []] rfl (by decide)
        (Yields.more [3] [[]] rfl (by decide) (Yields.eof [] rfl (by decide))))
      7 (by decide),
   (WriteStream_size_mismatch goodNet (freshClient 2) bytesReader [1, 2, 3]).2.2
      _ [[1, 2, 3]] rfl (fun _ _ => ⟨rfl, rfl⟩) (by decide)
      (WritesOut.write [1, 2, 3] _ 3 [] (WritesOut.ret 3 [])) 0⟩

/-- A source of 3 bytes that hands out one byte per read, copied through a
2-byte buffer to a socket that takes every send, is written in 3 sends of one
byte each. -/
theorem WriteStream_one_byte_reads :
    Yields oneByteReader 2 [1, 2, 3] [[1], [2], [3], []] ∧
    ((freshClient 2).WriteStream goodNet oneByteReader [1, 2, 3] 3 10).status
      = .returned 3 none ∧
    ((freshClient 2).WriteStream goodNet oneByteReader [1, 2, 3] 3 10).client.conn.sent
      = [[1], [2], [3]] ∧
    ((freshClient 2).WriteStream goodNet oneByteReader [1, 2, 3] 3 10).client.conn.sent.length
      ≠ (3 + 2 - 1) / 2 :=
  ⟨Yields.more [1, 2, 3] [[2], [3], []] rfl (by decide)
      (Yields.more [2, 3] [[3], []] rfl (by decide)
        (Yields.more [3] [[]] rfl (by decide) (Yields.eof [] rfl (by decide)))),
   rfl, rfl, by decide⟩

/-- For a source of `L` bytes without a `WriteTo` that fills the buffer on
every read while data remains, a client with payload size `0 < P < L` and a
socket that takes every send, `WriteStream(source, L)` returns `(L, nil)` once
the loop has run `L + 1` times or fewer, having made exactly `ceil(L/P)` sends,
each of at most `P` bytes, whose payloads in order make up the content. -/
theorem WriteStream_full_reads {α κ σ : Type} (net : Net α κ) (c : udpClient κ)
    (rd : Reader σ) (r : σ) (content : List Byte) (fuel : Nat) (hwt : rd.WriteTo = none)
    (hacc : Accepts net) (hP : 0 < c.buffer.length) (hPL : c.buffer.length < content.length)
    (hsrc : FullReads rd c.buffer.length r content) (hfuel : content.length + 1 ≤ fuel) :
    (c.WriteStream net rd r content.length fuel).status = .returned content.length none ∧
    ∃ sends : List (List Byte),
      (c.WriteStream net rd r content.length fuel).client.conn.sent = c.conn.sent ++ sends ∧
      sends.length = (content.length + c.buffer.length - 1) / c.buffer.length ∧
      (∀ d ∈ sends, d.length ≤ c.buffer.length) ∧
      sends.flatten = content := by
  have _ := hPL
  obtain ⟨reads, hy, hfl, hcnt, hlen, hall⟩ :=
    fullReads_yields rd c.buffer.length hP r content hsrc
  have hbuf : c.buffer ≠ [] := List.length_pos.mp hP
  obtain ⟨h1, h2⟩ := copyLoop_yields net rd hacc c.buffer.length r reads hy
    { src := r, dst := c.conn, buf := c.buffer, written := 0 } rfl rfl fuel (by omega)
  rw [← CopyBuffer_eq_copyLoop net rd c.conn r c.buffer fuel hbuf hwt] at h1 h2
  simp only [Int.zero_add, hfl] at h1
  constructor
  · rw [WriteStream_returned net c rd r content.length fuel content.length none h1]
    simp
  · refine ⟨reads.filter (fun d => decide (d ≠ [])), ?_, hcnt, ?_, ?_⟩
    · rw [WriteStream_client]
      exact h2
    · intro d hd
      exact hall d (List.mem_filter.mp hd).1
    · rw [flatten_filter_nonempty, hfl]

/-- C4 (the code at the failing input): a `*bytes.Reader` over 5 bytes (a
source of total length `L = 5`, with a `WriteTo` of its own), written by a
client with payload size `P = 2` to a socket that takes every send, with
declared size 5. `WriteStream` returns `(5, nil)`, but it has made one send of
all 5 bytes: not `ceil(5/2) = 3` sends, and not sends of at most 2 bytes. The
same bytes from a reader without `WriteTo` go out as `[1,2]`, `[3,4]`, `[5]`. -/
theorem WriteStream_writeTo_oversized_send :
    ((freshClient 2).WriteStream goodNet bytesReader [1, 2, 3, 4, 5] 5 6).status
      = .returned 5 none ∧
    ((freshClient 2).WriteStream goodNet bytesReader [1, 2, 3, 4, 5] 5 6).client.conn.sent
      = [[1, 2, 3, 4, 5]] ∧
    ((freshClient 2).WriteStream goodNet bytesReader [1, 2, 3, 4, 5] 5 6).client.conn.sent.length
      ≠ (5 + 2 - 1) / 2 ∧
    ¬ (∀ d ∈ ((freshClient 2).WriteStream goodNet bytesReader [1, 2, 3, 4, 5] 5
        6).client.conn.sent, d.length ≤ (freshClient 2).buffer.length) ∧
    ((freshClient 2).WriteStream goodNet sliceReader [1, 2, 3, 4, 5] 5 6).client.conn.sent
      = [[1, 2], [3, 4], [5]] :=
  ⟨rfl, rfl, by decide, by decide, rfl⟩

/-- C9 (the code at the failing input): the same 3-byte source written by the
same client returns no error with declared size 3 and an error with declared
size 4, so the declared size is not ignored; `WriteStreamWithParams` does the
same with declared sizes 3 and 8. -/
theorem WriteStream_size_not_ignored :
    ((freshClient 4).WriteStream goodNet sliceReader [1, 2, 3] 3 5).status
      = .returned 3 none ∧
    ((freshClient 4).WriteStream goodNet sliceReader [1, 2, 3] 4 5).status
      = .returned 3 (some (GoError.errorf "Expected to write 4 bytes, only wrote 3")) ∧
    ((freshClient 4).WriteStream goodNet sliceReader [1, 2, 3] 3 5).status.err
      ≠ ((freshClient 4).WriteStream goodNet sliceReader [1, 2, 3] 4 5).status.err ∧
    ((freshClient 2).WriteStreamWithParams goodNet sliceReader [1, 2, 3] 3 () 5).status
      = .returned 3 none ∧
    ((freshClient 2).WriteStreamWithParams goodNet sliceReader [1, 2, 3] 8 () 5).status
      = .returned 3 (some (GoError.errorf "Expected to write 8 bytes, only wrote 3")) :=
  ⟨rfl, rfl, by decide, rfl, rfl⟩

/-- What the declared size does and does not decide. For any two declared
sizes `WriteStream` returns the same count, makes the same sends and leaves
the same client and the same reader, and so does `WriteStreamWithParams`; the
error returned with a count `n` is the error of the copy when `n` is the
declared size, and otherwise the size-mismatch error that names the declared
size. -/
theorem WriteStream_size_only_decides_error {α κ σ ω : Type} (net : Net α κ)
    (c : udpClient κ) (rd : Reader σ) (r : σ) (s1 s2 : Int) (wp : ω) (fuel : Nat) :
    (c.WriteStream net rd r s1 fuel).status.count
      = (c.WriteStream net rd r s2 fuel).status.count ∧
    (c.WriteStream net rd r s1 fuel).client = (c.WriteStream net rd r s2 fuel).client ∧
    (c.WriteStream net rd r s1 fuel).client.conn.sent
      = (c.WriteStream net rd r s2 fuel).client.conn.sent ∧
    (c.WriteStream net rd r s1 fuel).src = (c.WriteStream net rd r s2 fuel).src ∧
    (c.WriteStreamWithParams net rd r s1 wp fuel).status.count
      = (c.WriteStreamWithParams net rd r s2 wp fuel).status.count ∧
    (c.WriteStreamWithParams net rd r s1 wp fuel).client
      = (c.WriteStreamWithParams net rd r s2 wp fuel).client ∧
    (∀ n err, (CopyBuffer net rd c.conn r c.buffer fuel).2 = .returned n err →
      (c.WriteStream net rd r s1 fuel).status
        = .returned n (if n = s1 then err else some (GoError.errorf (mismatchText s1 n)))) := by
  have hc : (c.WriteStream net rd r s1 fuel).client = (c.WriteStream net rd r s2 fuel).client := by
    rw [WriteStream_client, WriteStream_client]
  have hn : (c.WriteStream net rd r s1 fuel).status.count
      = (c.WriteStream net rd r s2 fuel).status.count := by
    rw [WriteStream_count, WriteStream_count]
  refine ⟨hn, hc, by rw [hc], ?_, hn, hc, ?_⟩
  · rw [WriteStream_src, WriteStream_src]
  · intro n err h
    exact WriteStream_returned net c rd r s1 fuel n err h

/-- C2 (the code at the failing inputs): `WriteStream` does not hand back the
error of the source or of the socket when the count differs from the declared
size. A read that fails at once with "boom" (declared size 10), a read that
fails with "boom" after two bytes were sent (declared size 5), and a send that
fails with "refused" after one packet went out (3 bytes, 2-byte buffer,
declared size 3) all return the size-mismatch error in place of the error
that stopped the loop, while the count and the sends are those made up to the
failure. `Write` on a refusing socket does return "refused", and `WriteStream`
returns "boom" when the count happens to equal the declared size. -/
theorem WriteStream_masks_transport_error :
    (((freshClient 4).WriteStream goodNet (failingReader (.external "boom")) () 10 5).status
        = .returned 0 (some (GoError.errorf "Expected to write 10 bytes, only wrote 0")) ∧
      ((freshClient 4).WriteStream goodNet (failingReader (.external "boom")) () 10
          5).status.err ≠ some (some (GoError.external "boom"))) ∧
    (((freshClient 4).WriteStream goodNet scriptReader
          [([1, 2], none), ([], some (.external "boom"))] 5 5).status
        = .returned 2 (some (GoError.errorf "Expected to write 5 bytes, only wrote 2")) ∧
      ((freshClient 4).WriteStream goodNet scriptReader
          [([1, 2], none), ([], some (.external "boom"))] 5 5).client.conn.sent = [[1, 2]] ∧
      ((freshClient 4).WriteStream goodNet scriptReader
          [([1, 2], none), ([], some (.external "boom"))] 5 5).status.err
        ≠ some (some (GoError.external "boom"))) ∧
    (((flakyClient 2).WriteStream (flakyNet (.external "refused")) sliceReader [1, 2, 3] 3
          5).status
        = .returned 2 (some (GoError.errorf "Expected to write 3 bytes, only wrote 2")) ∧
      ((flakyClient 2).WriteStream (flakyNet (.external "refused")) sliceReader [1, 2, 3] 3
          5).client.conn.sent = [[1, 2], [3]] ∧
      ((flakyClient 2).WriteStream (flakyNet (.external "refused")) sliceReader [1, 2, 3] 3
          5).status.err ≠ some (some (GoError.external "refused"))) ∧
    ((freshClient 4).Write (refusingNet (.external "refused")) [1, 2, 3]).1
      = (0, some (GoError.external "refused")) ∧
    ((freshClient 4).WriteStream goodNet scriptReader
        [([1, 2], none), ([], some (.external "boom"))] 2 5).status
      = .returned 2 (some (GoError.external "boom")) :=
  ⟨⟨rfl, by decide⟩, ⟨rfl, rfl, by decide⟩, ⟨rfl, rfl, by decide⟩, rfl, rfl⟩

/-- What the loop does with an error, for a source without a `WriteTo`: if,
after `k` iterations of the copy, a read fails with an error `e` other than
`EOF` (the bytes returned with it, if any, being taken by the socket) or the
send of the bytes read fails with `e`, the loop stops there: no further send
is made, and `WriteStream` returns the number of bytes written up to and
including that iteration. The error returned is `e` itself only when that
number is the declared size; otherwise it is the size-mismatch error. -/
theorem WriteStream_error_propagation {α κ σ : Type} (net : Net α κ) (c : udpClient κ)
    (rd : Reader σ) (r : σ) (size : Int) (k : Nat) (st : CopyState σ κ) (e : GoError)
    (fuel : Nat) (hbuf : c.buffer ≠ []) (hwt : rd.WriteTo = none)
    (hrun : copyLoop net rd k { src := r, dst := c.conn, buf := c.buffer, written := 0 }
      = (st, .running))
    (hle : (nextRead rd st).data.length ≤ st.buf.length)
    (hfail : ReadFails net rd st e ∨ SendFails net rd st e) (hfuel : k < fuel) :
    (c.WriteStream net rd r size fuel).status
      = .returned (countAfter net rd st)
          (some (if countAfter net rd st = size then e
            else GoError.errorf (mismatchText size (countAfter net rd st)))) ∧
    (c.WriteStream net rd r size fuel).client.conn.sent
      = st.dst.sent ++ (if (nextRead rd st).data = [] then [] else [(nextRead rd st).data]) := by
  obtain ⟨j, rfl⟩ : ∃ j, fuel = k + (j + 1) := ⟨fuel - k - 1, by omega⟩
  have hcb := CopyBuffer_eq_copyLoop net rd c.conn r c.buffer (k + (j + 1)) hbuf hwt
  rw [copyLoop_running_add net rd k _ st (j + 1) hrun] at hcb
  have hiter : (copyIter net rd st).2 = .returned (countAfter net rd st) (some e) ∧
      (copyIter net rd st).1.dst.sent = st.dst.sent ++
        (if (nextRead rd st).data = [] then [] else [(nextRead rd st).data]) := by
    unfold countAfter nextSend ReadFails SendFails nextSend nextRead at *
    rcases hfail with ⟨herr, hne, hd | ⟨hn, hok⟩⟩ | ⟨hd, herr⟩
    · rw [copyIter_empty net rd st hd, herr, readErrStatus_error e hne]
      simp [hd]
    · by_cases hd : (rd.Read st.src st.buf.length).data = []
      · rw [copyIter_empty net rd st hd, herr, readErrStatus_error e hne]
        simp [hd]
      · rw [copyIter_send net rd st hd hle hn hok, herr, readErrStatus_error e hne]
        have hnn : ¬ (((rd.Read st.src st.buf.length).data.length : Int) < 0) := by omega
        simp [hd, hn, accepted, hnn]
    · rw [copyIter_send_error net rd st e hd hle herr]
      simp [hd]
  obtain ⟨hst, hsent⟩ := hiter
  rcases hit : copyIter net rd st with ⟨st1, s1⟩
  rw [hit] at hst hsent
  simp only at hst hsent
  subst hst
  rw [copyLoop_succ_done net rd j st st1 _ hit (by simp)] at hcb
  constructor
  · rw [WriteStream_returned net c rd r size _ (countAfter net rd st) (some e)
      (by rw [hcb])]
    by_cases hn : countAfter net rd st = size
    · simp [hn]
    · simp [hn, mismatchText]
  · rw [WriteStream_client, hcb]
    exact hsent

/-! ## The buffer -/

/-- C10: in every state reachable from a successful `NewUDP` by calls of
`Query`, `Write`, `WriteWithParams`, `WriteStream` and `WriteStreamWithParams`,
whatever they return, the buffer has the length fixed at construction:
`PayloadSize` when it is positive, 512 otherwise. `Write`, `WriteWithParams`
and `Query` also leave the contents of the buffer as they were. -/
theorem buffer_length_invariant {α κ : Type} (ω : Type) (net : Net α κ) (config : UDPConfig)
    (c : udpClient κ) (h : Reachable ω net config c) :
    ((c.buffer.length : Int)
      = if config.PayloadSize > 0 then config.PayloadSize else UDPPayloadSize) ∧
    (∀ b, (c.Write net b).2.buffer = c.buffer) ∧
    (∀ b (wp : ω), (c.WriteWithParams net b wp).2.buffer = c.buffer) ∧
    (∀ command, (c.Query command).2.buffer = c.buffer) := by
  refine ⟨?_, fun _ => rfl, fun _ _ => rfl, fun _ => rfl⟩
  induction h with
  | init c hc => exact NewUDP_returned_buffer net config c hc
  | query c command _ ih => exact ih
  | write c b _ ih => exact ih
  | writeWithParams c b wp _ ih => exact ih
  | writeStream c rd r size fuel _ ih =>
    rw [WriteStream_buffer_length]
    exact ih
  | writeStreamWithParams c rd r size wp fuel _ ih =>
    unfold udpClient.WriteStreamWithParams
    rw [WriteStream_buffer_length]
    exact ih

/-- C10, at a concrete run: a client built with `PayloadSize = 16` still has a
16-byte buffer after a write, a stream write cut off after two iterations, a
stream write that fails, and a query. -/
theorem buffer_length_invariant_witness :
    ((((((freshClient 16).Write goodNet helloMetric).2.WriteStream goodNet oneByteReader
        [1, 2, 3] 3 2).client.WriteStream goodNet (failingReader (.external "boom")) () 0
        4).client.Query "q").2.buffer.length : Int) = 16 :=
  (buffer_length_invariant Unit goodNet { URL := "udp://127.0.0.1:9999", PayloadSize := 16 } _
    (Reachable.query _ "q"
      (Reachable.writeStream _ (failingReader (.external "boom")) () 0 4
        (Reachable.writeStream _ oneByteReader [1, 2, 3] 3 2
          (Reachable.write _ helloMetric (Reachable.init (freshClient 16) rfl)))))).1

end UDP
